import Mathlib

/-! Shallow embedding of the constraint-model builders, result validators and
schedule materializer of the dwave-examples employee-scheduling repository.

The repository carries two generations of the application side by side:
the root modules (employee_scheduling.py, utils.py, nl_formulation.py) and a
newer variant under src/ (src/employee_scheduling.py).  Definitions below are
translated from those Python sources; each definition names the function and
lines it embeds.  Assignments are boolean employee-by-shift data, availability
states are 0 (unavailable), 1 (available), 2 (preferred), and the role of an
employee is read off the display name exactly as the Python code does
(name[-3:] == "Mgr" for managers, name[-2:] == "Tr" for trainees, trainer
name = name[:-3]).
-/

namespace EmployeeScheduling

/-- UNAVAILABLE_ICON from demo_configs.py. -/
def UNAVAILABLE_ICON : String := "x"

/-- REQUESTED_SHIFT_ICON from demo_configs.py. -/
def REQUESTED_SHIFT_ICON : String := "✓"

/-- ModelParams from utils.py (root variant): employee availability rows keyed
by employee name in insertion order, shift labels, per-employee shift bounds,
per-shift staffing bounds and the policy flags. -/
structure ModelParams where
  availability : List (String × List Nat)
  shifts : List String
  min_shifts : Int
  max_shifts : Int
  shift_min : Int
  shift_max : Int
  requires_manager : Bool
  allow_isolated_days_off : Bool
  max_consecutive_shifts : Nat

/-- The last n characters of a name, as Python name[-n:]. -/
def nameTail (e : String) (n : Nat) : String :=
  String.mk (e.data.drop (e.data.length - n))

/-- Python name[:-3], the trainer name encoded in a trainee name. -/
def trainerName (e : String) : String :=
  String.mk (e.data.take (e.data.length - 3))

/-- Python employee[-3:] == "Mgr". -/
def isManagerName (e : String) : Bool := nameTail e 3 == "Mgr"

/-- Python employee[-2:] == "Tr". -/
def isTraineeName (e : String) : Bool := nameTail e 2 == "Tr"

/-- employees = list(params.availability.keys()). -/
def employeesOf (p : ModelParams) : List String := p.availability.map Prod.fst

/-- managers = [employee for employee in employees if employee[-3:] == "Mgr"]. -/
def managers (employees : List String) : List String := employees.filter isManagerName

/-- trainees = [employee for employee in employees if employee[-2:] == "Tr"]. -/
def trainees (employees : List String) : List String := employees.filter isTraineeName

/-- Value of a binary decision variable as an integer. -/
def binVal (b : Bool) : Int := if b then 1 else 0

/-- Value of a binary decision variable as a rational, for objective terms. -/
def binValQ (b : Bool) : ℚ := if b then 1 else 0

/-- Number of true entries of a boolean row. -/
def countTrue (l : List Bool) : Nat := l.count true

/-- Satisfaction of the trainee-pairing constraints that build_cqm adds
(employee_scheduling.py lines 150-157, identically src/employee_scheduling.py
lines 173-179): for every shift, the single constraint
x[trainees[0], shift] - x[trainees[0], shift] * x[trainees[0][:-3], shift] == 0.
Only the first trainee of the roster is constrained.  With no trainee the
Python code raises before any such constraint exists (see build_cqm below). -/
def cqmTraineeConstraintsOk (employees : List String) (shifts : List String)
    (x : String → String → Bool) : Bool :=
  match trainees employees with
  | [] => true
  | t0 :: _ =>
      shifts.all fun sh =>
        binVal (x t0 sh) - binVal (x t0 sh) * binVal (x (trainerName t0) sh) == 0

/-- Trainee pairing as the specification states it: every trainee of the
roster may be assigned a shift only if its designated trainer is assigned
that same shift. -/
def specTraineePairingOk (employees : List String) (shifts : List String)
    (x : String → String → Bool) : Bool :=
  (trainees employees).all fun t =>
    shifts.all fun sh => !(x t sh) || x (trainerName t) sh

/-- Satisfaction of the trainee-pairing constraint of build_nl
(employee_scheduling.py lines 300-307): trainees_c holds the index of every
Tr-marked employee, trainers holds the index of the matching trainer name,
and assignments[trainees_c] <= assignments[trainers_c] holds elementwise. -/
def nlTraineeConstraintsOk (employees : List String) (numShifts : Nat)
    (x : Nat → Nat → Bool) : Bool :=
  ((trainees employees).map fun e => employees.indexOf e).all fun ti =>
    let trainerIdx := employees.indexOf (trainerName (employees.getD ti ""))
    (List.range numShifts).all fun s => !(x ti s) || x trainerIdx s

/-- quicksum(x[manager, shift] for manager in managers), the number of managers
assigned to a shift. -/
def managerCount (employees : List String) (x : String → String → Bool)
    (sh : String) : Nat :=
  (managers employees).countP fun m => x m sh

/-- Satisfaction of the manager constraints of the root build_cqm
(employee_scheduling.py lines 127-134, added when requires_manager): for every
shift, quicksum over managers == 1.  The root build_nl (lines 288-290) encodes
the same == 1 comparison. -/
def cqmManagerConstraintsOk (employees : List String) (shifts : List String)
    (x : String → String → Bool) : Bool :=
  shifts.all fun sh => managerCount employees x sh == 1

/-- Satisfaction of the manager constraints of src/employee_scheduling.py
build_cqm (lines 156-162): for every shift, quicksum over managers >= 1.
nl_formulation.py line 125 and src build_nl line 335 encode the same >= 1. -/
def srcCqmManagerConstraintsOk (employees : List String) (shifts : List String)
    (x : String → String → Bool) : Bool :=
  shifts.all fun sh => decide (1 ≤ managerCount employees x sh)

/-- Satisfaction of the consecutive-shift constraints of build_cqm for one
employee row (employee_scheduling.py lines 136-148): for s in
range(len(shifts) - k), the window of the k+1 entries starting at s sums to at
most k, where k = max_consecutive_shifts. -/
def cqmConsecutiveRowOk (k : Nat) (xs : List Bool) : Bool :=
  (List.range (xs.length - k)).all fun s =>
    decide (countTrue ((xs.drop s).take (k + 1)) ≤ k)

/-- Satisfaction of the consecutive-shift constraints of build_nl for one
employee row (employee_scheduling.py lines 292-298, identically
nl_formulation.py lines 127-133 and src build_nl lines 337-341): for s in
range(num_shifts - k + 1), the slice assignments[e][s : s + k + 2] (clipped at
the end of the row) sums to at most k. -/
def nlConsecutiveRowOk (k : Nat) (xs : List Bool) : Bool :=
  (List.range (xs.length + 1 - k)).all fun s =>
    decide (countTrue ((xs.drop s).take (k + 2)) ≤ k)

/-- The row has more than k consecutive assigned shifts: some k+1 successive
entries are all true. -/
def hasRunGT (k : Nat) (xs : List Bool) : Bool :=
  (List.range (xs.length - k)).any fun s => ((xs.drop s).take (k + 1)).all id

/-- The per-employee loop body of _validate_max_consecutive_shifts
(utils.py lines 500-512, identically nl_formulation.py lines 320-329): the
windows results[e, i : i + k] for i in range(n - k) are examined and the
employee is flagged when some window sums to more than k. -/
def validatorFlagsTooManyConsecutive (k : Nat) (xs : List Bool) : Bool :=
  (List.range (xs.length - k)).any fun i =>
    decide (k < countTrue ((xs.drop i).take k))

/-- The isolated-day-off constraint expression of build_cqm lines 118-123:
-3*x2 + x1*x2 + x2*x3 + x1*x3 over three adjacent shift variables. -/
def isolatedExpr (x1 x2 x3 : Bool) : Int :=
  -3 * binVal x2 + binVal x1 * binVal x2 + binVal x2 * binVal x3
    + binVal x1 * binVal x3

/-- Satisfaction of all isolated-day-off constraints added by build_cqm
(employee_scheduling.py lines 111-125, when allow_isolated_days_off is false):
for every window of three consecutive shifts starting at an index i with
i + 2 < len(shifts), and every employee, isolatedExpr over the three adjacent
variables is at most 0.  The builder adds no other isolated-day-off
constraint, in particular none at the schedule boundaries. -/
def cqmIsolatedConstraintsOk (employees : List String) (shifts : List String)
    (x : String → String → Bool) : Bool :=
  (List.range (shifts.length - 2)).all fun i =>
    employees.all fun e =>
      decide (isolatedExpr (x e (shifts.getD i "")) (x e (shifts.getD (i + 1) ""))
        (x e (shifts.getD (i + 2) "")) ≤ 0)

/-- Exception raised by build_cqm when an availability row is shorter than the
shift list (schedule[i] in the objective loop, employee_scheduling.py line 67). -/
def availRowError : String := "IndexError: list index out of range (availability row)"

/-- Exception raised by build_cqm at trainees[0] when the roster holds no
Tr-marked employee (employee_scheduling.py line 154). -/
def traineeIndexError : String := "IndexError: list index out of range (trainees[0])"

/-- Exception raised by build_cqm when the trainer name of the first trainee is
not an employee, so x has no such variable (employee_scheduling.py line 154). -/
def trainerKeyError : String := "KeyError: trainer name is not an employee"

/-- Outcome of the root build_cqm (employee_scheduling.py lines 50-159): the
ordered list of labels of the constraints of the built model, or the Python
exception the build raises.  The build performs no input validation; it fails
only at the list and dictionary lookups of the source: a too-short availability
row (first hit in the objective loop), trainees[0] on a roster without a
trainee, and the variable lookup of an unresolvable trainer name.  Both trainee
failure points sit inside the loop over shifts, so they are only reached when
the shift list is nonempty.  Rows longer than the shift list are silently
accepted, and no relation between min_shifts and max_shifts is checked. -/
def build_cqm (p : ModelParams) : Except String (List String) :=
  let employees := employeesOf p
  if !(p.availability.all fun row => decide (p.shifts.length ≤ row.2.length)) then
    .error availRowError
  else
    let unavailableLabels := p.availability.flatMap fun row =>
      ((List.range p.shifts.length).filter fun i => row.2.getD i 1 == 0).map fun i =>
        "unavailable," ++ row.1 ++ "," ++ p.shifts.getD i ""
    let boundLabels := employees.flatMap fun e =>
      ["overtime," ++ e ++ ",", "insufficient," ++ e ++ ","]
    let staffingLabels := p.shifts.flatMap fun sh =>
      ["understaffed,," ++ sh, "overstaffed,," ++ sh]
    let isolatedLabels :=
      if !p.allow_isolated_days_off then
        (List.range (p.shifts.length - 2)).flatMap fun i =>
          employees.map fun e => "isolated," ++ e ++ "," ++ p.shifts.getD (i + 1) ""
      else []
    let managerLabels :=
      if p.requires_manager then p.shifts.map fun sh => "manager_issue,," ++ sh
      else []
    let consecutiveLabels := employees.flatMap fun e =>
      (List.range (p.shifts.length - p.max_consecutive_shifts)).map fun s =>
        "too_many_consecutive," ++ e ++ "," ++ p.shifts.getD s ""
    let body := unavailableLabels ++ boundLabels ++ staffingLabels
      ++ isolatedLabels ++ managerLabels ++ consecutiveLabels
    if p.shifts.isEmpty then
      .ok body
    else
      match trainees employees with
      | [] => .error traineeIndexError
      | t0 :: _ =>
          if employees.contains (trainerName t0) then
            .ok (body ++ p.shifts.map fun sh => "trainee_issue,," ++ sh)
          else .error trainerKeyError

/-- Availability rows with preferred entries promoted to weight 100, as the
root build_nl does before building its availability constant
(employee_scheduling.py lines 224-226). -/
def availabilityWeights (avail : List (List Nat)) : List (List Nat) :=
  avail.map fun row => row.map fun a => if a == 2 then 100 else a

/-- (assignments * availability_const).sum() of the root build_nl. -/
def preferredTerm (weights : List (List Nat)) (x : List (List Bool)) : ℚ :=
  ((x.zip weights).map fun rw =>
    ((rw.1.zip rw.2).map fun bw => binValQ bw.1 * (bw.2 : ℚ)).sum).sum

/-- Sum over employees of (assignments[e, :].sum() - target_shifts) ** 2 of the
root build_nl. -/
def deviationTerm (target : ℚ) (x : List (List Bool)) : ℚ :=
  (x.map fun row => ((row.map binValQ).sum - target) ^ 2).sum

/-- The function the root build_nl asks the solver to minimize
(employee_scheduling.py lines 237-248): obj is the availability-weighted
assignment sum plus the per-employee squared deviations from
(min_shifts + max_shifts) / 2, and the model minimizes -obj. -/
def nlMinimizedObjective (avail : List (List Nat)) (min_shifts max_shifts : ℚ)
    (x : List (List Bool)) : ℚ :=
  -(preferredTerm (availabilityWeights avail) x
    + deviationTerm ((min_shifts + max_shifts) / 2) x)

/-- build_schedule_from_state (utils.py lines 157-169) at the level of the
employee-by-shift grid: the cell of the display row is " " where the solved
state is 1 and UNAVAILABLE_ICON otherwise.  Rows appear in roster order; the
DataFrame indexes rows by the pairwise-distinct employee names. -/
def build_schedule_from_state (state : List (List Bool)) : List (List String) :=
  state.map fun row => row.map fun b => if b then " " else UNAVAILABLE_ICON

/-- Re-derivation of the boolean assignment from the materialized display
states, as the specification describes it: a cell " " means assigned and the
unavailable icon means unassigned. -/
def assignmentFromSchedule (schedule : List (List String)) : List (List Bool) :=
  schedule.map fun row => row.map fun cell => cell == " "

/-- The availability-merge step of display_schedule (utils.py lines 248-257) at
a single cell: unscheduled cells (holding UNAVAILABLE_ICON) are first replaced
by the invisible character, then availability 0 forces the unavailable icon and
availability 2 appends the requested-shift icon to the cell. -/
def displayMergeCell (avail : Nat) (cell : String) : String :=
  let marked := if cell == UNAVAILABLE_ICON then "\r" else cell
  if avail == 0 then UNAVAILABLE_ICON
  else if avail == 2 then marked ++ REQUESTED_SHIFT_ICON
  else marked

/-- The availability-merge step of display_schedule over the whole grid,
pairing every schedule row with the availability row of the same employee. -/
def displayMergeGrid (avail : List (List Nat)) (grid : List (List String)) :
    List (List String) :=
  (grid.zip avail).map fun rows =>
    (rows.1.zip rows.2).map fun ca => displayMergeCell ca.2 ca.1

/-- Roster for the trainee-pairing counterexample: two trainees, each with its
trainer present. -/
def c1Employees : List String := ["A", "B", "A-Tr", "B-Tr"]

/-- Assignment for the trainee-pairing counterexample: only the second trainee
works, its trainer does not. -/
def c1x (e _sh : String) : Bool := e == "B-Tr"

/-- Assignment for the isolated-day-off counterexample: off on the first shift,
on afterwards. -/
def c5x (_e sh : String) : Bool := sh != "1"

/-- Parameters with min_shifts greater than max_shifts, a well-shaped roster
and a resolvable trainee, for the fail-fast counterexample. -/
def c6Params : ModelParams where
  availability := [("A-Mgr", [1, 1]), ("A", [1, 1]), ("A-Tr", [1, 1])]
  shifts := ["1", "2"]
  min_shifts := 5
  max_shifts := 3
  shift_min := 1
  shift_max := 3
  requires_manager := true
  allow_isolated_days_off := false
  max_consecutive_shifts := 1

/-- A well-shaped roster without any Tr-marked employee. -/
def c10Params : ModelParams where
  availability := [("A-Mgr", [1]), ("B", [1])]
  shifts := ["1"]
  min_shifts := 0
  max_shifts := 1
  shift_min := 1
  shift_max := 2
  requires_manager := true
  allow_isolated_days_off := true
  max_consecutive_shifts := 1

/-- C8: materializing a boolean assignment matrix into the display grid and
re-deriving the assignment from the display states (cell " " assigned, the
unavailable icon unassigned) recovers the original matrix exactly. -/
theorem c8_round_trip (state : List (List Bool)) :
    assignmentFromSchedule (build_schedule_from_state state) = state := by
  have hcell : ((fun cell => cell == " ") ∘ fun b : Bool =>
      if b then " " else UNAVAILABLE_ICON) = id := by
    funext b
    cases b <;> rfl
  simp [assignmentFromSchedule, build_schedule_from_state, List.map_map, hcell]

/-- C9 counterexample: the availability merge of display_schedule is not
idempotent — on a preferred (availability 2) cell a second application appends
the requested-shift icon again. -/
theorem c9_counterexample :
    displayMergeGrid [[2]] (displayMergeGrid [[2]] [[" "]])
      ≠ displayMergeGrid [[2]] [[" "]] := by
  decide

/-- C9 amended: at every cell whose availability state is not preferred (2),
the availability merge of display_schedule is idempotent; only preferred cells
gain another requested-shift icon on a second application. -/
theorem c9_amended (a : Nat) (cell : String) (h : a ≠ 2) :
    displayMergeCell a (displayMergeCell a cell) = displayMergeCell a cell := by
  have h2 : (a == 2) = false := by simp [h]
  by_cases h0 : a = 0
  · subst h0
    simp [displayMergeCell, UNAVAILABLE_ICON]
  · have h0' : (a == 0) = false := by simp [h0]
    by_cases hic : cell == UNAVAILABLE_ICON
    · have hc : cell = UNAVAILABLE_ICON := by simpa using hic
      subst hc
      have hrx : (("\r" : String) == UNAVAILABLE_ICON) = false := by decide
      have hxx : ((UNAVAILABLE_ICON : String) == UNAVAILABLE_ICON) = true := by decide
      simp [displayMergeCell, h0', h2, hrx, hxx]
    · simp [displayMergeCell, h0', h2, hic]

/-- C9 witness: the amended idempotence at a concrete non-preferred cell. -/
theorem c9_witness :
    (1 : Nat) ≠ 2 ∧ displayMergeCell 1 (displayMergeCell 1 " ") = displayMergeCell 1 " " :=
  ⟨by decide, c9_amended 1 " " (by decide)⟩

/-- C5 counterexample: the built model imposes no boundary constraint — the
pattern off-then-on at the first shift satisfies every isolated-day-off
constraint build_cqm adds. -/
theorem c5_counterexample :
    c5x "A" "1" = false ∧ c5x "A" "2" = true ∧
    cqmIsolatedConstraintsOk ["A"] ["1", "2", "3"] c5x = true := by
  decide

/-- C5 amended: the interior-window constraint -3*x2 + x1*x2 + x2*x3 + x1*x3 <= 0
is violated exactly at the pattern (1, 0, 1), and the isolated-day-off
constraints of the built model are exactly these interior-window constraints;
no additional boundary pattern is forbidden at the first or last shift. -/
theorem c5_amended (employees shifts : List String) (x : String → String → Bool) :
    (∀ a b c : Bool, isolatedExpr a b c ≤ 0 ↔ ¬(a = true ∧ b = false ∧ c = true)) ∧
    (cqmIsolatedConstraintsOk employees shifts x = true ↔
      ∀ i < shifts.length - 2, ∀ e ∈ employees,
        ¬(x e (shifts.getD i "") = true ∧ x e (shifts.getD (i + 1) "") = false ∧
          x e (shifts.getD (i + 2) "") = true)) := by
  have key : ∀ a b c : Bool, isolatedExpr a b c ≤ 0 ↔ ¬(a = true ∧ b = false ∧ c = true) := by
    decide
  refine ⟨key, ?_⟩
  rw [cqmIsolatedConstraintsOk]
  simp only [List.all_eq_true, List.mem_range, decide_eq_true_eq]
  constructor
  · intro h i hi e he
    exact (key _ _ _).mp (h i hi e he)
  · intro h i hi e he
    exact (key _ _ _).mpr (h i hi e he)

/-- C7: in the root build_nl the squared-deviation term enters the minimized
objective with negative sign — on availability [[0, 0]] with bounds 0 and 2
the all-zero row has the same preferred term and a strictly larger deviation
than the on-target row, yet a strictly smaller minimized objective. -/
theorem c7_nl_objective_rewards_deviation :
    preferredTerm (availabilityWeights [[0, 0]]) [[true, false]]
      = preferredTerm (availabilityWeights [[0, 0]]) [[false, false]] ∧
    deviationTerm ((0 + 2 : ℚ) / 2) [[true, false]]
      < deviationTerm ((0 + 2 : ℚ) / 2) [[false, false]] ∧
    nlMinimizedObjective [[0, 0]] 0 2 [[false, false]]
      < nlMinimizedObjective [[0, 0]] 0 2 [[true, false]] := by
  refine ⟨?_, ?_, ?_⟩ <;>
    norm_num [nlMinimizedObjective, preferredTerm, deviationTerm,
      availabilityWeights, binValQ]

/-- C2 counterexample: in the root build_cqm the manager rule is an equality —
with two managers both assigned to the only shift, every shift has at least one
manager assigned, yet the built manager constraint is violated. -/
theorem c2_counterexample :
    (["1"].all fun sh =>
      decide (1 ≤ managerCount ["A-Mgr", "B-Mgr"] (fun _ _ => true) sh)) = true ∧
    cqmManagerConstraintsOk ["A-Mgr", "B-Mgr"] ["1"] (fun _ _ => true) = false := by
  decide

/-- C2 amended: the src build_cqm manager constraints are satisfied exactly
when every shift has at least one assigned manager (two managers on a shift
are allowed), while the root build_cqm constraints demand exactly one assigned
manager per shift. -/
theorem c2_amended (employees shifts : List String) (x : String → String → Bool) :
    (srcCqmManagerConstraintsOk employees shifts x = true ↔
      ∀ sh ∈ shifts, ∃ m ∈ managers employees, x m sh = true) ∧
    (cqmManagerConstraintsOk employees shifts x = true ↔
      ∀ sh ∈ shifts, managerCount employees x sh = 1) := by
  constructor
  · rw [srcCqmManagerConstraintsOk]
    simp only [List.all_eq_true, decide_eq_true_eq]
    constructor
    · intro h sh hsh
      have := h sh hsh
      rw [managerCount] at this
      exact List.countP_pos_iff.mp (by omega)
    · intro h sh hsh
      have := List.countP_pos_iff.mpr (h sh hsh)
      rw [managerCount]
      omega
  · rw [cqmManagerConstraintsOk]
    simp [List.all_eq_true]

/-- A boolean row of length k+1 sums to at most k exactly when it is not all
true. -/
theorem countTrue_le_iff (l : List Bool) (k : Nat) (h : l.length = k + 1) :
    countTrue l ≤ k ↔ l.all id = false := by
  have hle : l.count true ≤ l.length := List.count_le_length true l
  have hiff : l.count true = l.length ↔ l.all id = true := by
    rw [List.count_eq_length, List.all_eq_true]
    constructor
    · intro hall b hb
      simpa [id] using (hall b hb).symm
    · intro hall b hb
      simpa [id] using (hall b hb).symm
  rw [countTrue]
  constructor
  · intro hc
    cases hval : l.all id with
    | false => rfl
    | true =>
      exfalso
      have := hiff.mpr hval
      omega
  · intro hall
    have hne : l.count true ≠ l.length := by
      intro hcl
      rw [hiff] at hcl
      rw [hall] at hcl
      exact Bool.false_ne_true hcl
    omega

/-- The window of k+1 entries taken inside a row has length exactly k+1. -/
theorem window_length (xs : List Bool) (k s : Nat) (hs : s < xs.length - k) :
    (((xs.drop s).take (k + 1)).length) = k + 1 := by
  rw [List.length_take, List.length_drop]
  omega

/-- C3 counterexample: with max_consecutive_shifts = 2 the row 1,1,0,1 has no
more than 2 consecutive assigned shifts and satisfies every consecutive-shift
constraint of the CQM encoding, yet it violates the constraint the NL encoding
builds, so the two encodings do not both encode the claimed rule. -/
theorem c3_counterexample :
    cqmConsecutiveRowOk 2 [true, true, false, true] = true ∧
    hasRunGT 2 [true, true, false, true] = false ∧
    nlConsecutiveRowOk 2 [true, true, false, true] = false := by
  decide

/-- C3 amended: the CQM encoding constrains every window of exactly k+1
consecutive shifts to at most k assignments, which holds exactly when the row
never has more than k consecutive assigned shifts; the NL encoding instead caps
slices of up to k+2 shifts at k, a strictly stronger condition that implies the
CQM constraints but also rejects some rows with at most k consecutive assigned
shifts. -/
theorem c3_amended (k : Nat) (xs : List Bool) :
    (cqmConsecutiveRowOk k xs = true ↔ hasRunGT k xs = false) ∧
    (nlConsecutiveRowOk k xs = true → cqmConsecutiveRowOk k xs = true) := by
  constructor
  · rw [cqmConsecutiveRowOk, hasRunGT, List.all_eq_true, List.any_eq_false]
    constructor
    · intro h s hs
      rw [List.mem_range] at hs
      have hwin := (countTrue_le_iff _ k (window_length xs k s hs)).mp
        (by simpa using h s (List.mem_range.mpr hs))
      simp [hwin]
    · intro h s hs
      rw [List.mem_range] at hs
      rw [decide_eq_true_eq]
      rw [countTrue_le_iff _ k (window_length xs k s hs)]
      have := h s (List.mem_range.mpr hs)
      cases hval : ((xs.drop s).take (k + 1)).all id with
      | false => rfl
      | true => exact absurd hval this
  · intro h
    rw [cqmConsecutiveRowOk, List.all_eq_true]
    intro s hs
    rw [List.mem_range] at hs
    rw [nlConsecutiveRowOk, List.all_eq_true] at h
    have hs' : s ∈ List.range (xs.length + 1 - k) := List.mem_range.mpr (by omega)
    have hnl : countTrue ((xs.drop s).take (k + 2)) ≤ k := by
      simpa using h s hs'
    rw [decide_eq_true_eq]
    have hsub : List.Sublist ((xs.drop s).take (k + 1)) ((xs.drop s).take (k + 2)) := by
      have : (xs.drop s).take (k + 1) = ((xs.drop s).take (k + 2)).take (k + 1) := by
        rw [List.take_take]
        congr 1
        omega
      rw [this]
      exact List.take_sublist _ _
    calc countTrue ((xs.drop s).take (k + 1))
        ≤ countTrue ((xs.drop s).take (k + 2)) := List.Sublist.count_le hsub true
      _ ≤ k := hnl

/-- C3 witness for the implication conjunct: the NL consecutive-shift
constraints hold on a concrete row, hence so do the CQM ones. -/
theorem c3_witness :
    nlConsecutiveRowOk 2 [true, false] = true ∧
    cqmConsecutiveRowOk 2 [true, false] = true :=
  ⟨by decide, (c3_amended 2 [true, false]).2 (by decide)⟩

/-- C4: the matrix-path validator can never report a too-many-consecutive
violation — its windows hold only k entries, whose sum can never exceed k —
although rows with more than k consecutive assigned shifts exist; build_cqm and
build_nl do forbid such rows, so the local re-check does not detect the rule
the model builders encode. -/
theorem c4_validator_never_flags :
    (∀ (k : Nat) (xs : List Bool), validatorFlagsTooManyConsecutive k xs = false) ∧
    hasRunGT 1 [true, true] = true := by
  constructor
  · intro k xs
    rw [validatorFlagsTooManyConsecutive, List.any_eq_false]
    intro i _
    rw [decide_eq_true_eq]
    intro hlt
    have h1 : countTrue ((xs.drop i).take k) ≤ ((xs.drop i).take k).length :=
      List.count_le_length true _
    have h2 : ((xs.drop i).take k).length ≤ k := by
      rw [List.length_take]
      omega
    omega
  · decide

/-- A build that raised an exception did not return a model. -/
theorem except_isOk_error (e : String) :
    (Except.error e : Except String (List String)).isOk = false := rfl

/-- A build that returned constraint labels returned a model. -/
theorem except_isOk_ok (v : List String) :
    (Except.ok v : Except String (List String)).isOk = true := rfl

/-- Case analysis of build_cqm on a nonempty shift list: the build fails on a
too-short availability row, then at trainees[0] on a roster without a trainee,
then at the variable lookup of an unresolvable trainer name, and otherwise
returns a model. -/
theorem build_cqm_eq_cases (p : ModelParams) (hsh : p.shifts.isEmpty = false) :
    ((p.availability.all fun row => decide (p.shifts.length ≤ row.2.length)) = false ∧
      build_cqm p = .error availRowError) ∨
    ((p.availability.all fun row => decide (p.shifts.length ≤ row.2.length)) = true ∧
      trainees (employeesOf p) = [] ∧ build_cqm p = .error traineeIndexError) ∨
    (∃ t0 rest,
      (p.availability.all fun row => decide (p.shifts.length ≤ row.2.length)) = true ∧
      trainees (employeesOf p) = t0 :: rest ∧
      (employeesOf p).contains (trainerName t0) = false ∧
      build_cqm p = .error trainerKeyError) ∨
    (∃ t0 rest,
      (p.availability.all fun row => decide (p.shifts.length ≤ row.2.length)) = true ∧
      trainees (employeesOf p) = t0 :: rest ∧
      (employeesOf p).contains (trainerName t0) = true ∧
      (build_cqm p).isOk = true) := by
  cases hall : (p.availability.all fun row => decide (p.shifts.length ≤ row.2.length)) with
  | false =>
    left
    refine ⟨rfl, ?_⟩
    rw [build_cqm]
    simp [hall]
  | true =>
    right
    cases ht : trainees (employeesOf p) with
    | nil =>
      left
      refine ⟨rfl, rfl, ?_⟩
      rw [build_cqm]
      simp [hall, hsh, ht]
    | cons t0 rest =>
      cases hc : (employeesOf p).contains (trainerName t0) with
      | false =>
        right; left
        refine ⟨t0, rest, rfl, rfl, hc, ?_⟩
        have hmem : ¬ trainerName t0 ∈ employeesOf p := by simpa using hc
        rw [build_cqm]
        simp [hall, hsh, ht, hmem]
      | true =>
        right; right
        refine ⟨t0, rest, rfl, rfl, hc, ?_⟩
        have hmem : trainerName t0 ∈ employeesOf p := by simpa using hc
        rw [build_cqm]
        simp [hall, hsh, ht, hmem, Except.isOk, Except.toBool]

/-- C6 counterexample: with min_shifts 5 strictly greater than max_shifts 3 on
a well-shaped roster, build_cqm still returns a model instead of rejecting the
input. -/
theorem c6_counterexample :
    c6Params.min_shifts > c6Params.max_shifts ∧ (build_cqm c6Params).isOk = true := by
  decide

/-- C6 amended: build_cqm performs no up-front validation.  On a nonempty shift
list it returns a model exactly when every availability row is at least as long
as the shift list (longer rows are silently accepted) and the roster holds a
Tr-marked employee whose trainer name resolves; a short row and an
unresolvable trainer surface as unhandled exceptions mid-build, and no relation
between min_shifts and max_shifts is ever checked. -/
theorem c6_amended (p : ModelParams) (hsh : p.shifts.isEmpty = false) :
    (build_cqm p).isOk = true ↔
      ((p.availability.all fun row => decide (p.shifts.length ≤ row.2.length)) = true ∧
        ∃ t0 rest, trainees (employeesOf p) = t0 :: rest ∧
          (employeesOf p).contains (trainerName t0) = true) := by
  rcases build_cqm_eq_cases p hsh with ⟨h1, h2⟩ | ⟨h1, h2, h3⟩ |
    ⟨t0, rest, h1, h2, h3, h4⟩ | ⟨t0, rest, h1, h2, h3, h4⟩
  · rw [h2, except_isOk_error, h1]
    simp
  · rw [h3, except_isOk_error, h2]
    simp
  · rw [h4, except_isOk_error, h2]
    apply iff_of_false (by simp)
    rintro ⟨-, t, r, heq, hcon⟩
    injection heq with heq1 _
    rw [← heq1] at hcon
    rw [h3] at hcon
    exact absurd hcon (by simp)
  · exact ⟨fun _ => ⟨h1, t0, rest, h2, h3⟩, fun _ => h4⟩

/-- C6 witness: the amended characterization evaluated at the concrete
parameters of the counterexample. -/
theorem c6_witness :
    c6Params.shifts.isEmpty = false ∧
    ((build_cqm c6Params).isOk = true ↔
      ((c6Params.availability.all fun row =>
          decide (c6Params.shifts.length ≤ row.2.length)) = true ∧
        ∃ t0 rest, trainees (employeesOf c6Params) = t0 :: rest ∧
          (employeesOf c6Params).contains (trainerName t0) = true)) :=
  ⟨by decide, c6_amended c6Params (by decide)⟩

/-- C10: on a well-shaped roster (nonempty shift list, every availability row
at least as long as the shift list) without any Tr-marked employee, build_cqm
raises the IndexError of trainees[0] instead of returning a model; and whenever
build_cqm does return a model, the roster holds a trainee whose trainer name
resolves to an employee. -/
theorem c10_build_cqm_requires_trainee (p : ModelParams)
    (hrows : (p.availability.all fun row => decide (p.shifts.length ≤ row.2.length)) = true)
    (hsh : p.shifts.isEmpty = false) :
    (trainees (employeesOf p) = [] → build_cqm p = .error traineeIndexError) ∧
    ((build_cqm p).isOk = true →
      ∃ t0 rest, trainees (employeesOf p) = t0 :: rest ∧
        (employeesOf p).contains (trainerName t0) = true) := by
  rcases build_cqm_eq_cases p hsh with ⟨h1, h2⟩ | ⟨h1, h2, h3⟩ |
    ⟨t0, rest, h1, h2, h3, h4⟩ | ⟨t0, rest, h1, h2, h3, h4⟩
  · rw [h1] at hrows
    exact absurd hrows (by simp)
  · refine ⟨fun _ => h3, fun hok => ?_⟩
    rw [h3, except_isOk_error] at hok
    exact absurd hok (by simp)
  · constructor
    · intro h0
      rw [h0] at h2
      exact absurd h2 (by simp)
    · intro hok
      rw [h4, except_isOk_error] at hok
      exact absurd hok (by simp)
  · constructor
    · intro h0
      rw [h0] at h2
      exact absurd h2 (by simp)
    · intro _
      exact ⟨t0, rest, h2, h3⟩

/-- C10 witness: a concrete well-shaped roster without a trainee makes
build_cqm raise the trainees[0] IndexError. -/
theorem c10_witness :
    (c10Params.availability.all fun row =>
      decide (c10Params.shifts.length ≤ row.2.length)) = true ∧
    c10Params.shifts.isEmpty = false ∧
    build_cqm c10Params = .error traineeIndexError :=
  ⟨by decide, by decide,
    (c10_build_cqm_requires_trainee c10Params (by decide) (by decide)).1 (by decide)⟩

/-- Reading the roster at the first index of a name returns that name. -/
theorem getD_indexOf_self (l : List String) (a : String) (h : a ∈ l) :
    l.getD (l.indexOf a) "" = a := by
  induction l with
  | nil => cases h
  | cons b t ih =>
    by_cases hba : b = a
    · subst hba
      simp [List.indexOf_cons]
    · have hbeq : (b == a) = false := by simp [hba]
      have hat : a ∈ t := by
        rcases List.mem_cons.mp h with h1 | h1
        · exact absurd h1.symm hba
        · exact h1
      simp only [List.indexOf_cons, hbeq, cond_false, List.getD_cons_succ]
      exact ih hat

/-- C1 counterexample: with two trainees in the roster, the assignment where
the second trainee works without its trainer satisfies every trainee-pairing
constraint build_cqm adds, because only the first trainee is constrained. -/
theorem c1_counterexample :
    cqmTraineeConstraintsOk c1Employees ["1"] c1x = true ∧
    specTraineePairingOk c1Employees ["1"] c1x = false := by
  decide

/-- C1 amended: the NL encoding enforces trainee pairing for every trainee of
the roster, while the CQM encoding enforces it only for the first Tr-marked
employee in roster order (the two coincide on the demo rosters, which hold
exactly one trainee). -/
theorem c1_amended (employees shifts : List String) (x : String → String → Bool)
    (numShifts : Nat) (y : Nat → Nat → Bool) :
    (cqmTraineeConstraintsOk employees shifts x = true ↔
      ∀ t0 rest, trainees employees = t0 :: rest →
        ∀ sh ∈ shifts, x t0 sh = true → x (trainerName t0) sh = true) ∧
    (nlTraineeConstraintsOk employees numShifts y = true ↔
      ∀ t ∈ trainees employees, ∀ s < numShifts,
        y (employees.indexOf t) s = true →
          y (employees.indexOf (trainerName t)) s = true) := by
  have bkey : ∀ b c : Bool,
      ((binVal b - binVal b * binVal c == 0) = true) ↔ (b = true → c = true) := by
    decide
  have okey : ∀ b c : Bool, ((!b || c) = true) ↔ (b = true → c = true) := by
    decide
  constructor
  · rw [cqmTraineeConstraintsOk]
    cases ht : trainees employees with
    | nil =>
      constructor
      · intro _ t0 rest heq
        exact absurd heq (by simp)
      · intro _
        rfl
    | cons t0 rest =>
      rw [List.all_eq_true]
      constructor
      · intro h t0' rest' heq sh hsh
        injection heq with heq1 _
        subst heq1
        exact (bkey _ _).mp (h sh hsh)
      · intro h sh hsh
        exact (bkey _ _).mpr (h t0 rest rfl sh hsh)
  · rw [nlTraineeConstraintsOk]
    simp only [List.all_eq_true, List.mem_map, List.mem_range, okey,
      forall_exists_index, and_imp]
    constructor
    · intro h t ht s hs hy
      have htmem : t ∈ employees := (List.mem_filter.mp ht).1
      have := h (employees.indexOf t) t ht rfl s hs hy
      rw [getD_indexOf_self employees t htmem] at this
      exact this
    · intro h ti t ht hti s hs hy
      subst hti
      have htmem : t ∈ employees := (List.mem_filter.mp ht).1
      rw [getD_indexOf_self employees t htmem]
      exact h t ht s hs hy

end EmployeeScheduling
